import Mathlib

/-!
Verification of the MCP multi-server client (Python repository) against its
natural-language specification.  The Python functions under test are shallowly
embedded as executable Lean definitions; JSON values are modelled by an
inductive type, Python strings by Lean strings (or lists of characters where
character-level reasoning is needed), and library oracles such as
`json.loads` / `ast.literal_eval` are universally quantified parse functions.
-/

set_option maxHeartbeats 1000000

/-- JSON values as produced by `json.loads`: null, booleans, (integer) numbers,
strings, arrays and objects (ordered key/value lists, keys unique as in a
Python dict). -/
inductive Json where
  | null
  | bool (b : Bool)
  | num (n : Int)
  | str (s : String)
  | arr (xs : List Json)
  | obj (fields : List (String × Json))

/-- Lookup of a key in an object's field list (first occurrence). -/
def objLookup : List (String × Json) → String → Option Json
  | [], _ => none
  | (k, v) :: rest, key => if k = key then some v else objLookup rest key

/-- Python `key in d` for a dict `d`; `false` on non-objects. -/
def Json.hasKey : Json → String → Bool
  | .obj fs, key => (objLookup fs key).isSome
  | _, _ => false

/-- Python `d[key]` / `d.get(key)` on a dict, `none` when absent or not a dict. -/
def Json.get? : Json → String → Option Json
  | .obj fs, key => objLookup fs key
  | _, _ => none

/-- Python `d.get(key, default)` on a dict. -/
def Json.getD (j : Json) (key : String) (dflt : Json) : Json :=
  match j.get? key with
  | some v => v
  | none => dflt

/- ----------------------------------------------------------------
C1: authoritative reply selection among decoded SSE events
(universal.py, `_post_mcp_request`, SSE branch).
---------------------------------------------------------------- -/

/-- Test whether the pattern occurs as a contiguous run inside the second
list, as Python's `in` does on strings. -/
def hasSubstr (pat : List Char) : List Char → Bool
  | [] => pat.isEmpty
  | c :: rest => pat.isPrefixOf (c :: rest) || hasSubstr pat rest

/-- Python equality of a decoded JSON value against a string literal: only a
string of the same characters compares equal. -/
def isStrEq (key : String) : Json → Bool
  | .str s => s == key
  | _ => false

/-- Python `key in ev` for a decoded JSON value, as evaluated by
`_post_mcp_request`'s selection loop: key containment on a dict, substring
test on a string, membership on a list; on any other operand (number,
boolean, null) the interpreter raises a TypeError, modelled as `.error ()`. -/
def pyContains (key : String) : Json → Except Unit Bool
  | .obj fs => .ok (objLookup fs key).isSome
  | .str s => .ok (hasSubstr key.data s.data)
  | .arr xs => .ok (xs.any (isStrEq key))
  | _ => .error ()

/-- Condition `"result" in ev or "error" in ev` with Python's short-circuit
`or`; a TypeError raised by either operand propagates. -/
def bearsReply (ev : Json) : Except Unit Bool :=
  match pyContains "result" ev with
  | .ok true => .ok true
  | .ok false => pyContains "error" ev
  | .error e => .error e

/-- Synthesized protocol error returned when no decoded event passes the
containment test: `{"error": {"code": -32603, "message": "No result in SSE stream"}}`. -/
def noResultError : Json :=
  .obj [("error", .obj [("code", .num (-32603)), ("message", .str "No result in SSE stream")])]

/-- Error object built by the outer `except Exception` handler of
`_post_mcp_request` (universal.py lines 86-87) when the selection loop raises;
`msg` stands for the interpreter-supplied `str(e)` text. -/
def unexpectedError (msg : String) : Json :=
  .obj [("error", .obj [("code", .num (-32603)),
        ("message", .str ("Unexpected error: " ++ msg))])]

/-- Loop `for ev in reversed(events): if "result" in ev or "error" in ev:
return ev` followed by the synthesized no-result error, written over an
already reversed list; a TypeError from the containment test escapes to the
enclosing `except Exception` branch. -/
def firstReply (msg : String) : List Json → Json
  | [] => noResultError
  | ev :: rest =>
    match bearsReply ev with
    | .ok true => ev
    | .ok false => firstReply msg rest
    | .error _ => unexpectedError msg

/-- SSE branch of `_post_mcp_request` (universal.py lines 64-69) together with
its exception handler: select the authoritative reply among decoded events. -/
def post_mcp_sse_select (msg : String) (events : List Json) : Json :=
  firstReply msg events.reverse

theorem firstReply_cons_false (msg : String) (a : Json) (l : List Json)
    (ha : bearsReply a = .ok false) :
    firstReply msg (a :: l) = firstReply msg l := by
  simp only [firstReply, ha]

theorem firstReply_cons_true (msg : String) (a : Json) (l : List Json)
    (ha : bearsReply a = .ok true) :
    firstReply msg (a :: l) = a := by
  simp only [firstReply, ha]

theorem firstReply_cons_raise (msg : String) (a : Json) (l : List Json)
    (ha : bearsReply a = .error ()) :
    firstReply msg (a :: l) = unexpectedError msg := by
  simp only [firstReply, ha]

theorem firstReply_append_of_forall_false {xs : List Json} (msg : String)
    (ys : List Json) (h : ∀ e ∈ xs, bearsReply e = .ok false) :
    firstReply msg (xs ++ ys) = firstReply msg ys := by
  induction xs with
  | nil => rfl
  | cons a as ih =>
    rw [List.cons_append,
      firstReply_cons_false msg a (as ++ ys) (h a (List.mem_cons_self a as))]
    exact ih (fun e he => h e (List.mem_cons_of_mem a he))

/-- Counterexample to C1: the decoded event list of the SSE body
`data: "result"` is the single bare string event `"result"`. It contains no
result or error key (a string has no keys), yet the program returns that
string rather than the synthesized no-result protocol error, because Python's
`in` on a string event is a substring test. -/
theorem c1_counterexample :
    (Json.str "result").hasKey "result" = false
    ∧ (Json.str "result").hasKey "error" = false
    ∧ post_mcp_sse_select "" [Json.str "result"] = Json.str "result"
    ∧ Json.str "result" ≠ noResultError := by
  refine ⟨rfl, rfl, by rfl, fun h => Json.noConfusion h⟩

/-- C1 (amended): scanning the decoded events from the last backwards, the
first event passing the Python containment test `"result" in ev or
"error" in ev` is returned as the authoritative reply; if the scan first hits
an event on which the test raises a TypeError (a number, boolean, or null
event), the outer handler returns an 'Unexpected error' object instead; if
every event fails the test, the synthesized protocol error whose message says
no result was found in the stream is returned. On object events the test is
exactly 'contains a result or error key', so over object-only streams this is
the original last-result-or-error rule. -/
theorem c1_sse_selection_amended (msg : String) (events l₁ l₂ : List Json)
    (ev : Json) :
    (events = l₁ ++ ev :: l₂ → bearsReply ev = .ok true →
      (∀ e ∈ l₂, bearsReply e = .ok false) →
      post_mcp_sse_select msg events = ev)
    ∧ (events = l₁ ++ ev :: l₂ → bearsReply ev = .error () →
      (∀ e ∈ l₂, bearsReply e = .ok false) →
      post_mcp_sse_select msg events = unexpectedError msg)
    ∧ ((∀ e ∈ events, bearsReply e = .ok false) →
      post_mcp_sse_select msg events = noResultError
        ∧ (noResultError.getD "error" .null).get? "message"
            = some (.str "No result in SSE stream"))
    ∧ (∀ fs, bearsReply (.obj fs)
        = .ok ((Json.obj fs).hasKey "result" || (Json.obj fs).hasKey "error")) := by
  refine ⟨?_, ?_, ?_, ?_⟩
  · intro hsplit hev hl₂
    subst hsplit
    unfold post_mcp_sse_select
    have hrev : (l₁ ++ ev :: l₂).reverse = l₂.reverse ++ ev :: l₁.reverse := by
      simp [List.reverse_append]
    rw [hrev, firstReply_append_of_forall_false msg (ev :: l₁.reverse)
      (fun e he => hl₂ e (List.mem_reverse.mp he))]
    exact firstReply_cons_true msg ev l₁.reverse hev
  · intro hsplit hev hl₂
    subst hsplit
    unfold post_mcp_sse_select
    have hrev : (l₁ ++ ev :: l₂).reverse = l₂.reverse ++ ev :: l₁.reverse := by
      simp [List.reverse_append]
    rw [hrev, firstReply_append_of_forall_false msg (ev :: l₁.reverse)
      (fun e he => hl₂ e (List.mem_reverse.mp he))]
    exact firstReply_cons_raise msg ev l₁.reverse hev
  · intro hnone
    refine ⟨?_, by simp [noResultError, Json.getD, Json.get?, objLookup]⟩
    unfold post_mcp_sse_select
    have hpad : events.reverse = events.reverse ++ [] := by simp
    rw [hpad, firstReply_append_of_forall_false msg []
      (fun e he => hnone e (List.mem_reverse.mp he))]
    rfl
  · intro fs
    unfold bearsReply pyContains
    cases h : (objLookup fs "result").isSome with
    | true => simp [h, Json.hasKey]
    | false => simp [h, Json.hasKey]

/- ----------------------------------------------------------------
C2: SSE frame decoding (universal.py, `_parse_sse_events`).
---------------------------------------------------------------- -/

/-- Whitespace characters removed by Python `str.strip`. -/
def isSpaceChar (c : Char) : Bool :=
  c == ' ' || c == '\t' || c == '\n' || c == '\r' || c == '\x0b' || c == '\x0c'

/-- Python `s.strip()`: remove leading and trailing whitespace. -/
def pyStrip (s : String) : String :=
  String.mk (((s.data.dropWhile isSpaceChar).reverse.dropWhile isSpaceChar).reverse)

/-- Python `str.splitlines` restricted to the line boundaries occurring in HTTP
bodies: `\n`, `\r` and `\r\n`; as in Python, no trailing empty line is produced. -/
def pySplitlinesAux : List Char → List Char → List String
  | [], acc => if acc.isEmpty then [] else [String.mk acc.reverse]
  | '\r' :: '\n' :: rest, acc => String.mk acc.reverse :: pySplitlinesAux rest []
  | '\r' :: rest, acc => String.mk acc.reverse :: pySplitlinesAux rest []
  | '\n' :: rest, acc => String.mk acc.reverse :: pySplitlinesAux rest []
  | c :: rest, acc => pySplitlinesAux rest (c :: acc)

/-- Split a response body into lines, as `text.splitlines()` does. -/
def pySplitlines (s : String) : List String :=
  pySplitlinesAux s.data []

/-- Loop body of `_parse_sse_events` (universal.py lines 33-43), threading the
pair (collected events, pending buffer of `data:` line texts); `parse` stands
for `json.loads`, with `none` marking the parse failures swallowed by the
`except` clause. -/
def sseStep (parse : String → Option Json) (st : List Json × List String) (line : String) :
    List Json × List String :=
  if line.startsWith "data:" then
    (st.1, st.2 ++ [pyStrip (line.drop 5)])
  else if pyStrip line = "" then
    match st.2 with
    | [] => st
    | buf =>
      match parse (pyStrip (String.intercalate "\n" buf)) with
      | some j => (st.1 ++ [j], [])
      | none => (st.1, [])
  else st

/-- Trailing-buffer flush after the loop of `_parse_sse_events` (lines 44-49). -/
def sseFlush (parse : String → Option Json) (st : List Json × List String) : List Json :=
  match st.2 with
  | [] => st.1
  | buf =>
    match parse (pyStrip (String.intercalate "\n" buf)) with
    | some j => st.1 ++ [j]
    | none => st.1

/-- `_parse_sse_events` (universal.py lines 29-50): extract the JSON payloads
carried in the SSE `data:` lines of a response body. -/
def parse_sse_events (parse : String → Option Json) (text : String) : List Json :=
  sseFlush parse ((pySplitlines text).foldl (sseStep parse) ([], []))

/-- Event texts determined by the buffering discipline alone (no parsing):
`data:` lines accumulate into a buffer, a blank line closes a non-empty buffer
into one event, and a non-empty buffer left at end-of-input becomes a final
event. -/
def sseTextStep (st : List String × List String) (line : String) :
    List String × List String :=
  if line.startsWith "data:" then (st.1, st.2 ++ [pyStrip (line.drop 5)])
  else if pyStrip line = "" then
    match st.2 with
    | [] => st
    | buf => (st.1 ++ [pyStrip (String.intercalate "\n" buf)], [])
  else st

/-- Accumulated text of each SSE event of the input, in source order. -/
def sseEventTexts (lines : List String) : List String :=
  match lines.foldl sseTextStep ([], []) with
  | (evs, []) => evs
  | (evs, buf) => evs ++ [pyStrip (String.intercalate "\n" buf)]

theorem sseStep_rel (parse : String → Option Json) (T B : List String) (l : String) :
    sseStep parse (T.filterMap parse, B) l
      = (((sseTextStep (T, B) l).1).filterMap parse, (sseTextStep (T, B) l).2) := by
  unfold sseStep sseTextStep
  by_cases h1 : l.startsWith "data:"
  · simp [h1]
  · by_cases h2 : pyStrip l = ""
    · cases B with
      | nil => simp [h1, h2]
      | cons b bs =>
        simp only [h1, h2, Bool.false_eq_true, if_false, if_true, ite_true, ite_false]
        cases hp : parse (pyStrip (String.intercalate "\n" (b :: bs))) with
        | none => simp [hp, List.filterMap_append, List.filterMap_cons]
        | some j => simp [hp, List.filterMap_append, List.filterMap_cons]
    · simp [h1, h2]

theorem sseStep_fold_rel (parse : String → Option Json) (lines : List String) :
    ∀ T B, lines.foldl (sseStep parse) (T.filterMap parse, B)
      = (((lines.foldl sseTextStep (T, B)).1).filterMap parse,
         (lines.foldl sseTextStep (T, B)).2) := by
  induction lines with
  | nil => intro T B; rfl
  | cons l ls ih =>
    intro T B
    rcases hstep : sseTextStep (T, B) l with ⟨T2, B2⟩
    rw [List.foldl_cons, List.foldl_cons, sseStep_rel, hstep]
    exact ih T2 B2

/-- C2: for every response body, the SSE decoder accumulates `data:` lines into
a buffer, closes it at each blank line, flushes a pending non-empty buffer at
end-of-input, parses every event's accumulated text independently, and returns
exactly the successfully parsed payloads in source order — an event whose text
fails to parse is skipped without affecting any other event. -/
theorem c2_sse_decoder_exact_payloads (parse : String → Option Json) (text : String) :
    parse_sse_events parse text = (sseEventTexts (pySplitlines text)).filterMap parse := by
  unfold parse_sse_events sseEventTexts
  have h := sseStep_fold_rel parse (pySplitlines text) [] []
  simp only [List.filterMap_nil] at h
  rw [h]
  rcases hfold : (pySplitlines text).foldl sseTextStep ([], []) with ⟨evs, B⟩
  cases B with
  | nil => rfl
  | cons b bs =>
    unfold sseFlush
    cases hp : parse (pyStrip (String.intercalate "\n" (b :: bs))) with
    | none => simp [List.filterMap_append, hp]
    | some j => simp [List.filterMap_append, hp]

/- ----------------------------------------------------------------
C3, C9, C10: the `coerce_rolls` argument-repair helper (agent.py and
math_client_langchain.py) and its use in the tool-call loop.
---------------------------------------------------------------- -/

/-- Python values relevant to the argument-repair helpers: `None`, booleans,
integers, strings and lists (the shapes `coerce_rolls` inspects). -/
inductive PyVal where
  | none
  | bool (b : Bool)
  | int (n : Int)
  | str (s : String)
  | list (xs : List PyVal)

/-- Python `isinstance(x, int)`: true for `int` and, since `bool` subclasses
`int`, also for `bool`. -/
def isPyInt : PyVal → Bool
  | .int _ => true
  | .bool _ => true
  | _ => false

/-- Test `isinstance(v, list) and all(isinstance(x, int) for x in v)`. -/
def isIntList : PyVal → Bool
  | .list xs => xs.all isPyInt
  | _ => false

/-- Python truthiness of a value, as used by the cache check `if last_rolls and ...`. -/
def pyTruthy : PyVal → Bool
  | .none => false
  | .bool b => b
  | .int n => n != 0
  | .str s => s != ""
  | .list xs => !xs.isEmpty

/-- String branch of `coerce_rolls`: `ast.literal_eval` (modelled by the oracle
`litEval`, with `none` for a raised exception) applied to a textual value,
accepted only when the decoded value is a list of integers. -/
def strDecode (litEval : String → Option PyVal) : PyVal → Option PyVal
  | .str s =>
    match litEval s with
    | some parsed => if isIntList parsed then some parsed else none
    | none => none
  | _ => none

/-- `coerce_rolls` (agent.py lines 18-30, identically math_client_langchain.py
lines 27-39): repair the `rolls` argument — accept a list of integers
unchanged; else literal-decode a string; else fall back to a truthy cached
last-known-good integer list; else raise `ValueError`. -/
def coerce_rolls (litEval : String → Option PyVal) (value last_rolls : PyVal) :
    Except String PyVal :=
  if isIntList value then .ok value
  else
    match strDecode litEval value with
    | some parsed => .ok parsed
    | none =>
      if pyTruthy last_rolls && isIntList last_rolls then .ok last_rolls
      else .error "Could not coerce 'rolls' to a list[int]."

/-- A cached value the repair will substitute: a non-empty list of integers
(the declared `rolls` schema is an integer array with `minItems: 1`, so this is
exactly the compatible shape). -/
def isCompatCache : PyVal → Bool
  | .list xs => !xs.isEmpty && xs.all isPyInt
  | _ => false

theorem pyTruthy_and_isIntList_eq_isCompatCache (c : PyVal) :
    (pyTruthy c && isIntList c) = isCompatCache c := by
  cases c <;> simp [pyTruthy, isIntList, isCompatCache]

/-- C3: `coerce_rolls` applies its cases in priority order: (a) a value already
a list of integers is returned unchanged; (b) otherwise a textual value whose
literal evaluation yields a list of integers is accepted as the decoded list;
(c) otherwise a compatible cached last-known-good value (a non-empty integer
list) is substituted; (d) otherwise a ValueError describing the expected shape
is raised. -/
theorem c3_coerce_rolls_priority (litEval : String → Option PyVal)
    (value cache : PyVal) :
    (isIntList value = true → coerce_rolls litEval value cache = .ok value)
    ∧ (∀ s parsed, value = .str s → litEval s = some parsed → isIntList parsed = true →
        coerce_rolls litEval value cache = .ok parsed)
    ∧ (isIntList value = false → strDecode litEval value = none →
        isCompatCache cache = true → coerce_rolls litEval value cache = .ok cache)
    ∧ (isIntList value = false → strDecode litEval value = none →
        isCompatCache cache = false →
        coerce_rolls litEval value cache
          = .error "Could not coerce 'rolls' to a list[int].") := by
  refine ⟨?_, ?_, ?_, ?_⟩
  · intro h; simp [coerce_rolls, h]
  · intro s parsed hv hlit hparsed
    subst hv
    have hsd : strDecode litEval (.str s) = some parsed := by
      simp [strDecode, hlit, hparsed]
    have hiv : isIntList (.str s) = false := rfl
    simp [coerce_rolls, hiv, hsd]
  · intro h1 h2 h3
    simp [coerce_rolls, h1, h2, pyTruthy_and_isIntList_eq_isCompatCache, h3]
  · intro h1 h2 h3
    simp [coerce_rolls, h1, h2, pyTruthy_and_isIntList_eq_isCompatCache, h3]

/-- Concrete stand-in for `ast.literal_eval`, used to instantiate the oracle in
witnesses. -/
def litEvalToy : String → Option PyVal := fun s =>
  if s = "[1,2,3]" then some (.list [.int 1, .int 2, .int 3]) else none

/-- Witness for C3: each priority case at a concrete input — a ready list, the
spec's textual example "[1,2,3]", an absent value with a cached list, and an
absent value with no cache. -/
theorem c3_witness :
    coerce_rolls litEvalToy (.list [.int 1, .int 2]) PyVal.none
        = .ok (.list [.int 1, .int 2])
    ∧ coerce_rolls litEvalToy (.str "[1,2,3]") PyVal.none
        = .ok (.list [.int 1, .int 2, .int 3])
    ∧ coerce_rolls litEvalToy PyVal.none (.list [.int 4, .int 5])
        = .ok (.list [.int 4, .int 5])
    ∧ coerce_rolls litEvalToy PyVal.none PyVal.none
        = .error "Could not coerce 'rolls' to a list[int]." := by
  refine ⟨?_, ?_, ?_, ?_⟩
  · exact (c3_coerce_rolls_priority litEvalToy _ _).1 rfl
  · exact (c3_coerce_rolls_priority litEvalToy _ _).2.1 "[1,2,3]" _ rfl rfl rfl
  · exact (c3_coerce_rolls_priority litEvalToy _ _).2.2.1 rfl rfl rfl
  · exact (c3_coerce_rolls_priority litEvalToy _ _).2.2.2 rfl rfl rfl

/-- C10: with an empty cached list, a value that is neither a list of integers
nor a string literal-decoding to one makes `coerce_rolls` raise its ValueError
rather than substitute the empty list — the cache check `if last_rolls and ...`
tests truthiness, and the empty list is falsy. -/
theorem c10_empty_cache_treated_as_missing (litEval : String → Option PyVal)
    (value : PyVal) (h1 : isIntList value = false)
    (h2 : strDecode litEval value = none) :
    coerce_rolls litEval value (.list [])
      = .error "Could not coerce 'rolls' to a list[int]." := by
  simp [coerce_rolls, h1, h2, pyTruthy]

/-- Witness for C10 at a concrete non-coercible value. -/
theorem c10_witness :
    coerce_rolls litEvalToy (.str "oops") (.list [])
      = .error "Could not coerce 'rolls' to a list[int]." :=
  c10_empty_cache_treated_as_missing litEvalToy (.str "oops") rfl rfl

/-- Python `type(x).__name__` for the values modelled here. -/
def pyTypeName : PyVal → String
  | .none => "NoneType"
  | .bool _ => "bool"
  | .int _ => "int"
  | .str _ => "str"
  | .list _ => "list"

/-- Corrective transcript message built in agent.py (lines 178-187) when
coercion of the `rolls` argument fails. -/
def sumDiceValidationMsg (rollsArg : PyVal) : String :=
  "Input validation error: 'rolls' must be an array of integers (got "
    ++ pyTypeName rollsArg
    ++ "). Please call sum_dice with e.g. \x7b\"rolls\": [1,2,3]\x7d."

/-- Outcome of the sum_dice argument-patch step in agent.py's tool-call loop:
either proceed to execute the call with the repaired arguments, or append a
corrective tool-result message to the transcript and continue with the next
call (`continue`). No third outcome exists: the `except` clause catches every
exception of the repair. -/
inductive ToolCallStep where
  | exec (args : List (String × PyVal))
  | toolReply (content : String)

/-- Python dict assignment `args["rolls"] = v` on an association list. -/
def setKey : List (String × PyVal) → String → PyVal → List (String × PyVal)
  | [], key, v => [(key, v)]
  | (k, w) :: rest, key, v =>
    if k = key then (k, v) :: rest else (k, w) :: setKey rest key v

/-- Python `args.get("rolls", None)`. -/
def getRollsArg (args : List (String × PyVal)) : PyVal :=
  match args.lookup "rolls" with
  | some v => v
  | none => PyVal.none

/-- Argument patching for `sum_dice` in agent.py's main loop (lines 171-188):
`coerce_rolls` is attempted; on failure the `except` branch appends the
corrective tool-result message and `continue`s to the next tool call. -/
def patch_sum_dice (litEval : String → Option PyVal)
    (args : List (String × PyVal)) (last_rolls : PyVal) : ToolCallStep :=
  match coerce_rolls litEval (getRollsArg args) last_rolls with
  | .ok v => .exec (setKey args "rolls" v)
  | .error _ => .toolReply (sumDiceValidationMsg (getRollsArg args))

/-- C9: a ValueError arising during argument repair never escapes the invoker:
it is converted into a tool-result transcript message describing the required
argument shape so the LLM can retry, and processing continues; when repair
succeeds, the call is executed with the repaired arguments. -/
theorem c9_validation_error_becomes_tool_reply (litEval : String → Option PyVal)
    (args : List (String × PyVal)) (cache : PyVal) :
    (∀ e, coerce_rolls litEval (getRollsArg args) cache = .error e →
      patch_sum_dice litEval args cache
        = .toolReply ("Input validation error: 'rolls' must be an array of integers (got "
            ++ pyTypeName (getRollsArg args)
            ++ "). Please call sum_dice with e.g. \x7b\"rolls\": [1,2,3]\x7d."))
    ∧ (∀ v, coerce_rolls litEval (getRollsArg args) cache = .ok v →
      patch_sum_dice litEval args cache = .exec (setKey args "rolls" v)) := by
  constructor
  · intro e he; unfold patch_sum_dice; rw [he]; rfl
  · intro v hv; unfold patch_sum_dice; rw [hv]

/-- Witness for C9 at a concrete failing call (a non-decodable string argument,
empty cache) and at a concrete succeeding call. -/
theorem c9_witness :
    patch_sum_dice litEvalToy [("rolls", .str "oops")] PyVal.none
      = .toolReply ("Input validation error: 'rolls' must be an array of integers (got "
          ++ "str"
          ++ "). Please call sum_dice with e.g. \x7b\"rolls\": [1,2,3]\x7d.")
    ∧ patch_sum_dice litEvalToy [("rolls", .str "[1,2,3]")] PyVal.none
      = .exec [("rolls", .list [.int 1, .int 2, .int 3])] := by
  constructor
  · exact (c9_validation_error_becomes_tool_reply litEvalToy
      [("rolls", .str "oops")] PyVal.none).1 _ rfl
  · exact (c9_validation_error_becomes_tool_reply litEvalToy
      [("rolls", .str "[1,2,3]")] PyVal.none).2 _ rfl

/- ----------------------------------------------------------------
C4: correlation-id assignment (client.py `_next_id`, universal.py `call_tool`).
---------------------------------------------------------------- -/

/-- `MCPClientStdio._next_id` (client.py lines 43-45): increment the
per-connection counter and return it; the pair is (returned id, new counter). -/
def next_id (s : Nat) : Nat × Nat := (s + 1, s + 1)

/-- Counter state after `k` calls of `_next_id`, starting from the
constructor's `self._id = 0`. -/
def counterAfter : Nat → Nat
  | 0 => 0
  | k + 1 => (next_id (counterAfter k)).2

/-- Correlation id returned for the `k`-th (0-based) request on one stdio
connection. -/
def nthId (k : Nat) : Nat := (next_id (counterAfter k)).1

/-- `SimpleHTTPMCPClient.call_tool` (universal.py lines 217-230): the JSON-RPC
payload sent for a `tools/call`; its `id` field is the literal 1 on every call. -/
def call_tool_payload (name : String) (arguments : Json) : Json :=
  .obj [("jsonrpc", .str "2.0"), ("id", .num 1), ("method", .str "tools/call"),
        ("params", .obj [("name", .str name), ("arguments", arguments)])]

/-- Counterexample to C4: on one HTTP connection, the `tools/call` payloads of
two different requests (different tool names) both carry correlation id 1 —
the id is reused, so ids are not unique per connection. -/
theorem c4_counterexample :
    call_tool_payload "roll_dice" (.obj []) ≠ call_tool_payload "sum_dice" (.obj [])
    ∧ (call_tool_payload "roll_dice" (.obj [])).get? "id" = some (.num 1)
    ∧ (call_tool_payload "sum_dice" (.obj [])).get? "id" = some (.num 1) := by
  refine ⟨?_, rfl, rfl⟩
  intro h
  have h1 : ((call_tool_payload "roll_dice" (.obj [])).getD "params" .null).get? "name"
      = some (.str "roll_dice") := rfl
  rw [h] at h1
  have h2 : ((call_tool_payload "sum_dice" (.obj [])).getD "params" .null).get? "name"
      = some (.str "sum_dice") := rfl
  rw [h2] at h1
  simp at h1

theorem counterAfter_eq (k : Nat) : counterAfter k = k := by
  induction k with
  | zero => rfl
  | succ k ih => simp [counterAfter, next_id, ih]

/-- C4 (amended): on a stdio connection, `_next_id` assigns correlation ids
uniquely and monotonically — the `k`-th request gets id `k + 1`, so an id is
never reused for two different requests; the HTTP client's `call_tool`, by
contrast, puts the constant id 1 in every request payload on its connection. -/
theorem c4_amended_id_assignment (j k : Nat) :
    nthId k = k + 1
    ∧ (nthId j = nthId k → j = k)
    ∧ (j < k → nthId j < nthId k)
    ∧ (∀ n a, (call_tool_payload n a).get? "id" = some (.num 1)) := by
  have hv : ∀ m, nthId m = m + 1 := fun m => by
    simp [nthId, next_id, counterAfter_eq]
  refine ⟨hv k, ?_, ?_, fun n a => rfl⟩
  · intro h; rw [hv j, hv k] at h; omega
  · intro h; rw [hv j, hv k]; omega

/-- Witness for C4 (amended) at requests 0 and 1 of a stdio connection. -/
theorem c4_amended_witness : nthId 0 < nthId 1 ∧ nthId 1 = 2 :=
  ⟨(c4_amended_id_assignment 0 1).2.2.1 (by decide),
   (c4_amended_id_assignment 0 1).1⟩

/- ----------------------------------------------------------------
C5: multi-server registry build with partial-failure tolerance
(universal.py, `connect_to_multiple_servers`).
---------------------------------------------------------------- -/

/-- Result-map entry recorded per endpoint by `fetch_server` (universal.py
lines 191-209): the listed tools on success, plus an error field on failure. -/
structure RegistryEntry where
  tools : Json
  error : Option Json

/-- Handling of one endpoint's `tools/list` response `data` inside
`fetch_server`: a reply bearing an `error` key is raised as `RuntimeError` and
caught, recording an error entry; otherwise the tools are extracted as
`data.get("result", {}).get("tools", [])`, where an `AttributeError` from
`.get` on a non-dict is likewise caught and recorded as an error entry. -/
def fetch_entry (data : Json) : RegistryEntry :=
  if data.hasKey "error" then
    ⟨.arr [], some (data.getD "error" .null)⟩
  else
    match data with
    | .obj fs =>
      match (Json.obj fs).getD "result" (.obj []) with
      | .obj rs => ⟨(Json.obj rs).getD "tools" (.arr []), none⟩
      | _ => ⟨.arr [], some .null⟩
    | _ => ⟨.arr [], some .null⟩

/-- `connect_to_multiple_servers` (universal.py lines 183-215) at the level of
recorded results: one discovery task per endpoint, all awaited by the
`asyncio.gather` join barrier, each endpoint's entry computed from its own
response alone. `responses` pairs every endpoint URL with the JSON its
`tools/list` request produced. -/
def connect_to_multiple_servers (responses : List (String × Json)) :
    List (String × RegistryEntry) :=
  responses.map (fun p => (p.1, fetch_entry p.2))

/-- Number of error-bearing entries in a built registry. -/
def countErr (m : List (String × RegistryEntry)) : Nat :=
  m.countP (fun p => p.2.error.isSome)

/-- Number of successful entries in a built registry. -/
def countOk (m : List (String × RegistryEntry)) : Nat :=
  m.countP (fun p => p.2.error.isNone)

theorem countOk_add_countErr (m : List (String × RegistryEntry)) :
    countOk m + countErr m = m.length := by
  unfold countOk countErr
  induction m with
  | nil => rfl
  | cons a as ih =>
    rw [List.countP_cons, List.countP_cons]
    cases h : a.2.error <;> simp [h] <;> omega

/-- C5: the registry build returns one entry per configured endpoint (the join
barrier waits for every task), each endpoint's entry depends only on that
endpoint's own response — so one endpoint's failure cannot affect another's
entry nor abort the build — and with 3 endpoints of which exactly 1 fails, the
result has 2 successful entries and 1 error-bearing entry. -/
theorem c5_registry_partial_failure (responses : List (String × Json)) :
    (connect_to_multiple_servers responses).length = responses.length
    ∧ (connect_to_multiple_servers responses).map Prod.fst = responses.map Prod.fst
    ∧ (∀ (other : List (String × Json)) (i : Nat),
        responses[i]?.map Prod.snd = other[i]?.map Prod.snd →
        ((connect_to_multiple_servers responses)[i]?).map Prod.snd
          = ((connect_to_multiple_servers other)[i]?).map Prod.snd)
    ∧ (responses.length = 3 →
        countErr (connect_to_multiple_servers responses) = 1 →
        countOk (connect_to_multiple_servers responses) = 2) := by
  refine ⟨by simp [connect_to_multiple_servers], by simp [connect_to_multiple_servers], ?_, ?_⟩
  · intro other i h
    unfold connect_to_multiple_servers
    rw [List.getElem?_map, List.getElem?_map]
    rw [Option.map_map, Option.map_map]
    have : (Prod.snd ∘ fun p : String × Json => (p.1, fetch_entry p.2))
        = fetch_entry ∘ Prod.snd := rfl
    rw [this, ← Option.map_map, ← Option.map_map, h]
  · intro hlen herr
    have hsum := countOk_add_countErr (connect_to_multiple_servers responses)
    have hl : (connect_to_multiple_servers responses).length = responses.length := by
      simp [connect_to_multiple_servers]
    omega

/-- Witness for C5 at 3 concrete endpoints of which exactly the second fails
discovery. -/
theorem c5_witness :
    countOk (connect_to_multiple_servers
      [("http://a/mcp", .obj [("result", .obj [("tools", .arr [.obj [("name", .str "t1")]])])]),
       ("http://b/mcp", .obj [("error", .obj [("code", .num (-32603))])]),
       ("http://c/mcp", .obj [("result", .obj [("tools", .arr [])])])]) = 2 :=
  ((c5_registry_partial_failure
    [("http://a/mcp", .obj [("result", .obj [("tools", .arr [.obj [("name", .str "t1")]])])]),
     ("http://b/mcp", .obj [("error", .obj [("code", .num (-32603))])]),
     ("http://c/mcp", .obj [("result", .obj [("tools", .arr [])])])]).2.2.2) rfl rfl

/- ----------------------------------------------------------------
C6: tools/list response-shape normalization (client.py `tools_list`).
---------------------------------------------------------------- -/

/-- Normalization of one `tools/list` response in `MCPClientStdio.tools_list`
(client.py lines 110-118): a dict bearing `tools` (with or without a `cursor`)
yields its `tools` field, a bare array yields itself; `none` means no shape
matched, so the next attempt (or the final raise) follows. -/
def tools_list_normalize : Json → Option Json
  | .obj fs =>
    if (Json.obj fs).hasKey "tools" then (Json.obj fs).get? "tools"
    else if (Json.obj fs).hasKey "cursor" && (Json.obj fs).hasKey "tools" then
      (Json.obj fs).get? "tools"
    else none
  | .arr xs => some (.arr xs)
  | _ => none

/-- C6: the three accepted `tools/list` response shapes — a bare array,
`{tools: [...]}`, and `{cursor, tools: [...]}` — all normalize to the same one
flat tools array when they carry identical tool content. -/
theorem c6_tools_list_shapes (ts : List Json) (cursor : Json) :
    tools_list_normalize (.arr ts) = some (.arr ts)
    ∧ tools_list_normalize (.obj [("tools", .arr ts)]) = some (.arr ts)
    ∧ tools_list_normalize (.obj [("cursor", cursor), ("tools", .arr ts)])
        = some (.arr ts) := by
  refine ⟨rfl, ?_, ?_⟩ <;>
    simp [tools_list_normalize, Json.hasKey, Json.get?, objLookup]

/- ----------------------------------------------------------------
C7: namespaced tool identifiers (universal_llm.py, `create_openai_tools` and
the resolution in `chat_with_tools`). Python strings are modelled at
character level here, since the claim is about string surgery.
---------------------------------------------------------------- -/

/-- Decimal digit character for `d < 10`. -/
def digitChar (d : Nat) : Char := Char.ofNat (48 + d)

/-- Decimal rendering of a natural number (most significant digit first),
modelling the f-string interpolation of the server index. -/
def natDigitsAux (n : Nat) (acc : List Char) : List Char :=
  if n < 10 then digitChar n :: acc
  else natDigitsAux (n / 10) (digitChar (n % 10) :: acc)
termination_by n
decreasing_by exact Nat.div_lt_self (by omega) (by omega)

/-- Decimal digits of a natural number. -/
def natDigits (n : Nat) : List Char := natDigitsAux n []

/-- Numeric value of a decimal digit character, `none` otherwise. -/
def digitVal? (c : Char) : Option Nat :=
  if 48 ≤ c.toNat ∧ c.toNat ≤ 57 then some (c.toNat - 48) else none

def parseNatAux : List Char → Nat → Option Nat
  | [], a => some a
  | c :: cs, a =>
    match digitVal? c with
    | some d => parseNatAux cs (a * 10 + d)
    | none => none

/-- Python `int(s)` restricted to strings of decimal digits (the only inputs
the namespacing scheme produces); `none` models the raised `ValueError`. -/
def parseNat : List Char → Option Nat
  | [] => none
  | c :: cs => parseNatAux (c :: cs) 0

/-- Python `s.split("_", 1)`: `none` when the string has no underscore,
otherwise the parts before and after the first underscore. -/
def splitOnceUnderscore : List Char → Option (List Char × List Char)
  | [] => none
  | c :: rest =>
    if c = '_' then some ([], rest)
    else
      match splitOnceUnderscore rest with
      | some (l, r) => some (c :: l, r)
      | none => none

/-- Characters of the literal `"server"`. -/
def serverChars : List Char := ['s', 'e', 'r', 'v', 'e', 'r']

/-- `create_openai_tools` (universal_llm.py line 330): the namespaced function
name `f"server{idx}_{name}"` for a tool `name` of the `idx`-th (1-based) server
in the registry's stable iteration order. -/
def create_function_name (idx : Nat) (name : List Char) : List Char :=
  serverChars ++ natDigits idx ++ '_' :: name

/-- Resolution in `chat_with_tools` (universal_llm.py lines 387-395): a
function name starting with `"server"` and containing an underscore is split at
its first underscore, the head's remainder after the 6-character prefix is
parsed as the 1-based server index, and an in-range index selects the owning
server URL from the registry's key order; anything else stays unresolved. -/
def resolve_function_name (urls : List String) (fn : List Char) :
    Option (String × List Char) :=
  if serverChars.isPrefixOf fn then
    match splitOnceUnderscore fn with
    | some (head, toolName) =>
      match parseNat (head.drop 6) with
      | some idx =>
        if 1 ≤ idx ∧ idx ≤ urls.length then
          match urls[idx - 1]? with
          | some u => some (u, toolName)
          | none => none
        else none
      | none => none
    | none => none
  else none

theorem digitChar_ne_underscore : ∀ d, d < 10 → digitChar d ≠ '_' := by decide

theorem digitVal?_digitChar : ∀ d, d < 10 → digitVal? (digitChar d) = some d := by decide

theorem natDigitsAux_no_underscore (n : Nat) :
    ∀ acc, (∀ c ∈ acc, c ≠ '_') → ∀ c ∈ natDigitsAux n acc, c ≠ '_' := by
  induction n using Nat.strong_induction_on with
  | _ n ih =>
    intro acc hacc c hc
    rw [natDigitsAux] at hc
    by_cases h : n < 10
    · rw [if_pos h] at hc
      rcases List.mem_cons.mp hc with h1 | h1
      · subst h1; exact digitChar_ne_underscore n h
      · exact hacc c h1
    · rw [if_neg h] at hc
      refine ih (n / 10) (Nat.div_lt_self (by omega) (by omega))
        (digitChar (n % 10) :: acc) ?_ c hc
      intro c2 hc2
      rcases List.mem_cons.mp hc2 with h1 | h1
      · subst h1; exact digitChar_ne_underscore (n % 10) (Nat.mod_lt n (by omega))
      · exact hacc c2 h1

theorem natDigits_no_underscore (n : Nat) : ∀ c ∈ natDigits n, c ≠ '_' :=
  natDigitsAux_no_underscore n [] (by intro c h; cases h)

theorem natDigitsAux_ne_nil (n : Nat) : ∀ acc, natDigitsAux n acc ≠ [] := by
  induction n using Nat.strong_induction_on with
  | _ n ih =>
    intro acc
    rw [natDigitsAux]
    by_cases h : n < 10
    · rw [if_pos h]; exact List.cons_ne_nil _ _
    · rw [if_neg h]
      exact ih (n / 10) (Nat.div_lt_self (by omega) (by omega)) _

theorem parseNatAux_natDigitsAux (n : Nat) :
    ∀ acc, parseNatAux (natDigitsAux n acc) 0 = parseNatAux acc n := by
  induction n using Nat.strong_induction_on with
  | _ n ih =>
    intro acc
    rw [natDigitsAux]
    by_cases h : n < 10
    · rw [if_pos h]
      simp [parseNatAux, digitVal?_digitChar n h]
    · rw [if_neg h]
      rw [ih (n / 10) (Nat.div_lt_self (by omega) (by omega))]
      have hm : n % 10 < 10 := Nat.mod_lt n (by omega)
      simp only [parseNatAux, digitVal?_digitChar (n % 10) hm]
      congr 1
      omega

/-- Round trip of the decimal rendering through Python `int`. -/
theorem parseNat_natDigits (n : Nat) : parseNat (natDigits n) = some n := by
  cases h : natDigits n with
  | nil => exact absurd h (natDigitsAux_ne_nil n [])
  | cons c cs =>
    have := parseNatAux_natDigitsAux n []
    rw [show natDigitsAux n [] = natDigits n from rfl, h] at this
    rw [parseNat, this]
    rfl

theorem splitOnceUnderscore_append (xs ys : List Char)
    (hxs : ∀ c ∈ xs, c ≠ '_') :
    splitOnceUnderscore (xs ++ '_' :: ys) = some (xs, ys) := by
  induction xs with
  | nil => simp [splitOnceUnderscore]
  | cons a as ih =>
    have ha : a ≠ '_' := hxs a (List.mem_cons_self a as)
    rw [List.cons_append, splitOnceUnderscore]
    rw [if_neg ha, ih (fun c hc => hxs c (List.mem_cons_of_mem a hc))]

theorem serverChars_isPrefixOf_append (rest : List Char) :
    serverChars.isPrefixOf (serverChars ++ rest) = true := by
  simp [serverChars, List.isPrefixOf]

/-- C7: the catalog's namespaced identifier `server<N>_<toolName>` (N the
1-based position of the owning endpoint in the registry's iteration order)
resolves back to exactly the (server URL, tool name) pair it was built from,
and two tools of the same name on different servers receive distinct
identifiers. -/
theorem c7_namespacing_round_trip (urls : List String) (idx : Nat)
    (name : List Char) (h1 : 1 ≤ idx) (h2 : idx ≤ urls.length) :
    resolve_function_name urls (create_function_name idx name)
      = some (urls.get ⟨idx - 1, by omega⟩, name)
    ∧ (∀ jdx, jdx ≠ idx → create_function_name jdx name ≠ create_function_name idx name) := by
  have hserver : ∀ c ∈ serverChars, c ≠ '_' := by decide
  have hsplit : ∀ m, splitOnceUnderscore (create_function_name m name)
      = some (serverChars ++ natDigits m, name) := by
    intro m
    have hm : create_function_name m name = (serverChars ++ natDigits m) ++ '_' :: name := by
      simp [create_function_name]
    rw [hm]
    refine splitOnceUnderscore_append _ _ ?_
    intro c hc
    rcases List.mem_append.mp hc with h | h
    · exact hserver c h
    · exact natDigits_no_underscore m c h
  constructor
  · have hpre : serverChars.isPrefixOf (create_function_name idx name) = true := by
      rw [show create_function_name idx name
          = serverChars ++ (natDigits idx ++ '_' :: name) from by simp [create_function_name]]
      exact serverChars_isPrefixOf_append _
    have hdrop : (serverChars ++ natDigits idx).drop 6 = natDigits idx := by
      rw [show (6 : Nat) = serverChars.length from rfl, List.drop_left]
    simp only [resolve_function_name, hpre, if_true, hsplit idx, hdrop, parseNat_natDigits]
    rw [if_pos (show 1 ≤ idx ∧ idx ≤ urls.length from ⟨h1, h2⟩)]
    rw [List.getElem?_eq_getElem (show idx - 1 < urls.length by omega)]
    rfl
  · intro jdx hne heq
    have hthis := hsplit jdx
    rw [heq, hsplit idx] at hthis
    have hheads : serverChars ++ natDigits jdx = serverChars ++ natDigits idx :=
      (congrArg Prod.fst (Option.some.inj hthis)).symm
    have hdig : natDigits jdx = natDigits idx := List.append_cancel_left hheads
    have hsome : some jdx = some idx := by
      rw [← parseNat_natDigits jdx, ← parseNat_natDigits idx, hdig]
    exact hne (Option.some.inj hsome)

/-- Witness for C7: two servers each exposing a tool named `search`; the
identifier built for server 2 resolves to server 2's URL with the original
name, and differs from server 1's identifier. -/
theorem c7_witness :
    resolve_function_name ["http://a/mcp", "http://b/mcp"]
        (create_function_name 2 ['s', 'e', 'a', 'r', 'c', 'h'])
      = some ("http://b/mcp", ['s', 'e', 'a', 'r', 'c', 'h'])
    ∧ create_function_name 1 ['s', 'e', 'a', 'r', 'c', 'h']
        ≠ create_function_name 2 ['s', 'e', 'a', 'r', 'c', 'h'] := by
  constructor
  · exact (c7_namespacing_round_trip ["http://a/mcp", "http://b/mcp"] 2
      ['s', 'e', 'a', 'r', 'c', 'h'] (by decide) (by decide)).1
  · exact (c7_namespacing_round_trip ["http://a/mcp", "http://b/mcp"] 2
      ['s', 'e', 'a', 'r', 'c', 'h'] (by decide) (by decide)).2 1 (by decide)

/- ----------------------------------------------------------------
C8: response matching on the pipe transport (client.py `_send`).
---------------------------------------------------------------- -/

/-- Outcome of the `_send` read loop: the matched response's result, a raised
RPC error, or the raised transport error on exhausted peer output. -/
inductive RpcOutcome where
  | result (r : Json)
  | rpcError (e : Json)
  | transportError (msg : String)

/-- Python `v == req_id` of a decoded id value against the integer request
id: numbers compare by value, and booleans compare as 1 and 0 because `bool`
subclasses `int` (`True == 1`); strings, arrays, objects, and a `None` from a
missing key never equal an integer. Decoded JSON numbers are modelled as
integers here. -/
def pyEqInt (reqId : Int) : Json → Bool
  | .num n => n == reqId
  | .bool b => (if b then (1 : Int) else 0) == reqId
  | _ => false

/-- Condition `isinstance(msg, dict) and msg.get("id") == req_id` (client.py
line 68), with Python's cross-type equality for the id value. -/
def msgIdMatches (reqId : Int) : Json → Bool
  | .obj fs =>
    match objLookup fs "id" with
    | some v => pyEqInt reqId v
    | none => false
  | _ => false

/-- Test satisfied by a line the reader accepts: its stripped text parses as a
JSON dict whose `id` equals the request's id. -/
def matchesId (parse : String → Option Json) (reqId : Int) (line : String) : Bool :=
  match parse (pyStrip line) with
  | some msg => msgIdMatches reqId msg
  | none => false

/-- Decision taken for one stdout line in `_send`'s loop body (client.py lines
61-71): `none` discards the line (non-JSON, non-dict, or mismatched id) and the
loop continues; `some` ends the loop with the embedded error raised or the
`result` field returned. `parse` models `json.loads` on the stripped line. -/
def lineOutcome (parse : String → Option Json) (reqId : Int) (line : String) :
    Option RpcOutcome :=
  match parse (pyStrip line) with
  | some msg =>
    if msgIdMatches reqId msg then
      if msg.hasKey "error" then
        some (.rpcError (msg.getD "error" .null))
      else
        some (.result (msg.getD "result" (.obj [])))
    else none
  | none => none

/-- Read loop of `MCPClientStdio._send` (client.py lines 56-71) over the lines
the peer's stdout will produce: discard until a line matches, and raise the
transport error carrying the captured stderr text when output ends first. -/
def read_response (parse : String → Option Json) (reqId : Int)
    (lines : List String) (stderr : String) : RpcOutcome :=
  match lines with
  | [] => .transportError ("No response from server. Stderr:\n" ++ stderr)
  | line :: rest =>
    match lineOutcome parse reqId line with
    | some out => out
    | none => read_response parse reqId rest stderr

theorem matchesId_eq_isSome (parse : String → Option Json) (reqId : Int)
    (line : String) :
    matchesId parse reqId line = (lineOutcome parse reqId line).isSome := by
  unfold matchesId lineOutcome
  cases hp : parse (pyStrip line) with
  | none => rfl
  | some msg =>
    cases hm : msgIdMatches reqId msg with
    | false => simp [hm]
    | true => cases he : msg.hasKey "error" <;> simp [hm, he]

theorem read_response_skip (parse : String → Option Json) (reqId : Int)
    (x : String) (rest : List String) (stderr : String)
    (h : matchesId parse reqId x = false) :
    read_response parse reqId (x :: rest) stderr
      = read_response parse reqId rest stderr := by
  cases ho : lineOutcome parse reqId x with
  | some out => rw [matchesId_eq_isSome, ho] at h; simp at h
  | none => simp [read_response, ho]

theorem read_response_no_match (parse : String → Option Json) (reqId : Int)
    (stderr : String) :
    ∀ lines : List String, lines.find? (matchesId parse reqId) = none →
      read_response parse reqId lines stderr
        = .transportError ("No response from server. Stderr:\n" ++ stderr) := by
  intro lines
  induction lines with
  | nil => intro _; rfl
  | cons x rest ih =>
    intro hf
    cases hx : matchesId parse reqId x with
    | true => rw [List.find?_cons_of_pos _ hx] at hf; exact absurd hf (by simp)
    | false =>
      rw [List.find?_cons_of_neg _ (by simp [hx])] at hf
      rw [read_response_skip parse reqId x rest stderr hx]
      exact ih hf

theorem lineOutcome_not_transport (parse : String → Option Json) (reqId : Int)
    (line : String) (out : RpcOutcome)
    (h : lineOutcome parse reqId line = some out) :
    ∀ m, out ≠ .transportError m := by
  intro m hm
  subst hm
  unfold lineOutcome at h
  repeat' split at h
  all_goals first
    | exact Option.noConfusion h
    | exact RpcOutcome.noConfusion (Option.some.inj h)

/-- C8: the pipe-transport reader discards every line that does not parse as a
JSON dict with the request's id and settles on the first line that does (the
outcome is that line's reply, independent of the discarded lines and of
anything after it, and is never the transport error); if the peer's output
ends with no match, the call fails with the fatal transport error whose
message includes the captured stderr text. -/
theorem c8_pipe_reader_first_match (parse : String → Option Json) (reqId : Int)
    (lines : List String) (stderr : String) :
    (lines.find? (matchesId parse reqId) = none →
      read_response parse reqId lines stderr
        = .transportError ("No response from server. Stderr:\n" ++ stderr))
    ∧ (∀ l₁ line l₂, lines = l₁ ++ line :: l₂ →
        (∀ x ∈ l₁, matchesId parse reqId x = false) →
        matchesId parse reqId line = true →
        read_response parse reqId lines stderr
          = read_response parse reqId [line] stderr
        ∧ ∀ m, read_response parse reqId [line] stderr ≠ .transportError m) := by
  constructor
  · exact read_response_no_match parse reqId stderr lines
  · intro l₁ line l₂ hsplit hskip hline
    subst hsplit
    have hout : ∃ out, lineOutcome parse reqId line = some out := by
      rw [matchesId_eq_isSome] at hline
      cases ho : lineOutcome parse reqId line with
      | none => rw [ho] at hline; simp at hline
      | some out => exact ⟨out, rfl⟩
    obtain ⟨out, ho⟩ := hout
    have hsingle : read_response parse reqId [line] stderr = out := by
      simp [read_response, ho]
    constructor
    · induction l₁ with
      | nil =>
        rw [hsingle]
        simp [read_response, ho]
      | cons y ys ih =>
        rw [List.cons_append,
          read_response_skip parse reqId y (ys ++ line :: l₂) stderr
            (hskip y (List.mem_cons_self y ys))]
        exact ih (fun x hx => hskip x (List.mem_cons_of_mem y hx))
    · intro m
      rw [hsingle]
      exact lineOutcome_not_transport parse reqId line out ho m

/-- Concrete stand-in for `json.loads` on fixed lines, used to instantiate the
oracle in the C8 witness. -/
def jsonLinesToy : String → Option Json := fun s =>
  if s = "resp-3" then some (.obj [("id", .num 3)])
  else if s = "resp-7" then
    some (.obj [("id", .num 7), ("result", .str "ok")])
  else if s = "resp-true" then
    some (.obj [("id", .bool true), ("result", .str "viaBool")])
  else none

/-- Witness for C8: a stream whose first line is junk, second line answers a
different id, and third line matches request id 7; an exhausted stream; and a
peer line carrying `{"id": true}` accepted for request id 1 (`True == 1`). -/
theorem c8_witness :
    read_response jsonLinesToy 7 ["garbage", "resp-3", "resp-7"] "boom"
      = .result (.str "ok")
    ∧ read_response jsonLinesToy 7 ["garbage"] "boom"
      = .transportError ("No response from server. Stderr:\n" ++ "boom")
    ∧ read_response jsonLinesToy 1 ["resp-true"] "boom" = .result (.str "viaBool") := by
  refine ⟨?_, ?_, ?_⟩
  · exact ((c8_pipe_reader_first_match jsonLinesToy 7
      ["garbage", "resp-3", "resp-7"] "boom").2
      ["garbage", "resp-3"] "resp-7" [] rfl
      (by intro x hx; fin_cases hx <;> decide) (by decide)).1.trans (by rfl)
  · exact (c8_pipe_reader_first_match jsonLinesToy 7 ["garbage"] "boom").1 (by decide)
  · exact ((c8_pipe_reader_first_match jsonLinesToy 1 ["resp-true"] "boom").2
      [] "resp-true" [] rfl (by intro x hx; simp at hx) (by decide)).1.trans (by rfl)

/-- Witness for C1 (amended) at the spec's example
`[{status: "pending"}, {result: {x: 1}}]`, at an all-pending stream, and at a
numeric event that triggers the TypeError path. -/
theorem c1_amended_witness :
    post_mcp_sse_select "tm"
      [.obj [("status", .str "pending")], .obj [("result", .obj [("x", .num 1)])]]
      = .obj [("result", .obj [("x", .num 1)])]
    ∧ post_mcp_sse_select "tm" [.obj [("status", .str "pending")]] = noResultError
    ∧ post_mcp_sse_select "tm" [.num 5] = unexpectedError "tm" := by
  refine ⟨?_, ?_, ?_⟩
  · exact (c1_sse_selection_amended "tm"
      [.obj [("status", .str "pending")], .obj [("result", .obj [("x", .num 1)])]]
      [.obj [("status", .str "pending")]] [] (.obj [("result", .obj [("x", .num 1)])])).1
      rfl rfl (by intro e he; simp at he)
  · exact ((c1_sse_selection_amended "tm" [.obj [("status", .str "pending")]] [] []
      (.obj [])).2.2.1 (by
        intro e he
        simp only [List.mem_singleton] at he
        subst he
        rfl)).1
  · exact (c1_sse_selection_amended "tm" [.num 5] [] [] (.num 5)).2.1
      rfl rfl (by intro e he; simp at he)
